import Mathlib

/-!
# Verification of the route registry and handlers of `src/main.py`

The repository registers a flat table of HTTP routes on a FastAPI app and
gives each route a small handler.  We embed the route table, the handlers,
and the data they manipulate directly from `src/main.py`.  The dispatcher,
path matching, and parameter coercion/validation live in the framework and
are modelled from the specification's matching algorithm (spec §4.1) and
coercion contract.
-/

/-- JSON-like values: what handlers return and what request bodies contain.
Numbers are either integers or rationals (modelling Python ints/floats). -/
inductive JVal where
  | s : String → JVal
  | i : Int → JVal
  | q : Rat → JVal
  | b : Bool → JVal
  | null : JVal
  | arr : List JVal → JVal
  | obj : List (String × JVal) → JVal
deriving Repr

/-- HTTP methods used by the app. -/
inductive Method where
  | get | post | put
deriving Repr, DecidableEq

/-- Modelled from the spec: kinds of per-field validation errors
(`missing`, `type_mismatch`, `length_violation`, `pattern_violation`,
`enum_violation`), spec §7. -/
inductive ErrKind where
  | missing | typeMismatch | lengthViolation | patternViolation | enumViolation
deriving Repr, DecidableEq

/-- Modelled from the spec: a per-field error descriptor {field, kind}. -/
structure FieldError where
  field : String
  kind : ErrKind
deriving Repr, DecidableEq

/-- Modelled from the spec: the outcome of handling one request —
a successful JSON response, `RouteNotFound`, a structured list of
validation errors, or a `ComputationError` (arithmetic on an absent
optional field at handler execution time), spec §7. -/
inductive Response where
  | ok : JVal → Response
  | notFound : Response
  | validationError : List FieldError → Response
  | computationError : Response
deriving Repr

/-- Whether a response is a success. -/
def Response.isOk : Response → Bool
  | .ok _ => true
  | _ => false

/-- A request: method, raw path, query string as ordered key/value pairs,
and an optional parsed JSON-object body. -/
structure Request where
  method : Method
  path : String
  query : List (String × String)
  body : Option (List (String × JVal))

/-- Modelled from the spec: the kind of a path placeholder — `int`, `str`,
`enum` (with its allowed wire values), or the greedy `str:path`. -/
inductive PhKind where
  | int | str | enum | path
deriving Repr, DecidableEq

/-- Modelled from the spec: one element of a route's path pattern —
a literal segment or a named placeholder. -/
inductive SegPat where
  | lit : String → SegPat
  | ph : String → PhKind → SegPat
deriving Repr, DecidableEq

/-- Modelled from the spec: split a `/`-separated tail into segments
(character-level, so that properties of the split can be proved). -/
def splitSegs : List Char → List String
  | [] => [""]
  | c :: cs =>
    if c = '/' then "" :: splitSegs cs
    else
      match splitSegs cs with
      | s :: ss => String.mk (c :: s.data) :: ss
      | [] => [String.mk [c]]

/-- Modelled from the spec: split an incoming request path into its
`/`-delimited segments, dropping the leading slash. -/
def splitPath (p : String) : List String :=
  match p.data with
  | '/' :: rest => splitSegs rest
  | other => splitSegs other

/-- Modelled from the spec: rejoin segments with `/` (the inverse of
splitting, used by the greedy `str:path` placeholder). -/
def joinSegs : List String → String
  | [] => ""
  | [s] => s
  | s :: rest => s ++ "/" ++ joinSegs rest

/-- Modelled from the spec: segment-wise pattern matching (spec §4.1).
A literal must equal the request segment exactly; a `str`/`int`/`enum`
placeholder consumes exactly one non-empty segment; a final `str:path`
placeholder consumes all remaining segments, rejoined with `/`.  Returns
the captured raw values keyed by placeholder name. -/
def matchSegs : List SegPat → List String → Option (List (String × String))
  | [], [] => some []
  | [], _ :: _ => none
  | [SegPat.ph n PhKind.path], rest =>
    if rest.isEmpty then none
    else some [(n, joinSegs rest)]
  | SegPat.lit s :: ps, seg :: rest =>
    if seg = s then matchSegs ps rest else none
  | SegPat.ph n k :: ps, seg :: rest =>
    if k = PhKind.path then none
    else if seg = "" then none
    else (matchSegs ps rest).map (fun l => (n, seg) :: l)
  | _ :: _, [] => none

/-- A registered route: method, path pattern, and a handler taking the
captured path parameters and the request. -/
structure Route where
  method : Method
  pattern : List SegPat
  handler : List (String × String) → Request → Response

/-- Modelled from the spec: iterate routes in registration order; the first
route whose method matches and whose pattern matches the split path wins;
if none matches the result is `RouteNotFound` (spec §4.1, steps 2–4). -/
def dispatch : List Route → Request → List String → Response
  | [], _, _ => .notFound
  | r :: rs, req, segs =>
    if r.method = req.method then
      match matchSegs r.pattern segs with
      | some caps => r.handler caps req
      | none => dispatch rs req segs
    else dispatch rs req segs

/-- Accumulate base-10 digits; any non-digit character fails the parse. -/
def parseDigits : List Char → Nat → Option Nat
  | [], acc => some acc
  | c :: cs, acc =>
    if c.isDigit then parseDigits cs (acc * 10 + (c.toNat - '0'.toNat))
    else none

/-- Modelled from the spec: parse a request value as a base-10 integer
(an optional leading minus sign followed by at least one digit). -/
def parseInt (s : String) : Option Int :=
  match s.data with
  | [] => none
  | '-' :: cs =>
    if cs.isEmpty then none
    else (parseDigits cs 0).map (fun n => -(n : Int))
  | cs => (parseDigits cs 0).map (fun n => (n : Int))

/-- Modelled from the spec: coerce a required path capture to `int`;
a parse failure is a per-field `type_mismatch` validation error. -/
def pathInt (caps : List (String × String)) (name : String) :
    Except FieldError Int :=
  match caps.lookup name with
  | none => .error ⟨name, .missing⟩
  | some v =>
    match parseInt v with
    | none => .error ⟨name, .typeMismatch⟩
    | some n => .ok n

/-- Coerce a required path capture to `str` (always present once matched). -/
def pathStr (caps : List (String × String)) (name : String) : String :=
  (caps.lookup name).getD ""

/-- Modelled from the spec: coerce an optional integer query parameter,
falling back to its declared default when absent. -/
def queryIntD (q : List (String × String)) (name : String) (dflt : Int) :
    Except FieldError Int :=
  match q.lookup name with
  | none => .ok dflt
  | some v =>
    match parseInt v with
    | none => .error ⟨name, .typeMismatch⟩
    | some n => .ok n

/-- Modelled from the spec: boolean coercion accepts case-insensitive
`true`/`false`/`1`/`0` (spec §4.1, type coercion). -/
def parseBool (v : String) : Option Bool :=
  let l := v.toLower
  if l = "true" ∨ l = "1" then some true
  else if l = "false" ∨ l = "0" then some false
  else none

/-- Modelled from the spec: coerce an optional boolean query parameter,
falling back to its declared default when absent. -/
def queryBoolD (q : List (String × String)) (name : String) (dflt : Bool) :
    Except FieldError Bool :=
  match q.lookup name with
  | none => .ok dflt
  | some v =>
    match parseBool v with
    | none => .error ⟨name, .typeMismatch⟩
    | some b => .ok b

/-- Modelled from the spec: regex matching for the fully anchored literal
patterns the source declares (`^fixedquery$`, `^hard$`): the value matches
exactly when wrapping it in the anchors reproduces the pattern. -/
def regexMatch (pat v : String) : Bool :=
  pat = "^" ++ v ++ "$"

/-- Modelled from the spec: validate an optional constrained `str` query
parameter (spec §4.1): length must satisfy `min_length ≤ len ≤ max_length`
when declared, and the value must match the declared regex pattern;
constraints are checked in that order and the first violation is reported. -/
def queryConstrainedStr (q : List (String × String)) (wire : String)
    (minLen maxLen : Option Nat) (pat : Option String) :
    Except FieldError (Option String) :=
  match q.lookup wire with
  | none => .ok none
  | some v =>
    if minLen.isSome ∧ v.length < minLen.getD 0 then
      .error ⟨wire, .lengthViolation⟩
    else if maxLen.isSome ∧ maxLen.getD 0 < v.length then
      .error ⟨wire, .lengthViolation⟩
    else if pat.isSome ∧ ¬ regexMatch (pat.getD "") v then
      .error ⟨wire, .patternViolation⟩
    else .ok (some v)

/-- Modelled from the spec: collect the error of a fallible coercion
(errors are collected per request, not fail-fast; spec §7). -/
def errList {α : Type} : Except FieldError α → List FieldError
  | .error e => [e]
  | .ok _ => []

/-- Serialize an optional string as Python/JSON would (`None` ↦ `null`). -/
def optStr : Option String → JVal
  | some v => .s v
  | none => .null

/-- Serialize an optional rational as Python/JSON would (`None` ↦ `null`). -/
def optRat : Option Rat → JVal
  | some v => .q v
  | none => .null

/-- Python truthiness of an optional string: `None` and `""` are falsy. -/
def truthy : Option String → Bool
  | some v => v ≠ ""
  | none => false

/-- Source: `root` (src/main.py, `GET /`). -/
def root (_caps : List (String × String)) (_req : Request) : Response :=
  .ok (.obj [("message", .s "Hello World")])

/-- Source: `read_item` (src/main.py, `GET /items/{item_id}`): echo the integer
path parameter. -/
def read_item (caps : List (String × String)) (_req : Request) : Response :=
  match pathInt caps "item_id" with
  | .error e => .validationError [e]
  | .ok item_id => .ok (.obj [("item_id", .i item_id)])

/-- Source: `read_user_me` (src/main.py, `GET /users/me`). -/
def read_user_me (_caps : List (String × String)) (_req : Request) :
    Response :=
  .ok (.obj [("user_id", .s "the_current_user")])

/-- Source: `read_user` (src/main.py, `GET /users/{user_id}`): echo the string
path parameter. -/
def read_user (caps : List (String × String)) (_req : Request) : Response :=
  .ok (.obj [("user_id", .s (pathStr caps "user_id"))])

/-- Source: `read_users` (src/main.py, first `GET /users` registration). -/
def read_users (_caps : List (String × String)) (_req : Request) : Response :=
  .ok (.arr [.s "Rick", .s "Morty"])

/-- Source: `read_users3` (src/main.py, second, shadowed `GET /users`
registration). -/
def read_users3 (_caps : List (String × String)) (_req : Request) :
    Response :=
  .ok (.arr [.s "Bean", .s "Elfo"])

/-- Source: `ModelName` (src/main.py): a str-valued Enum with members
`a = "abc"`, `b = "def"`, `c = "ghi"`. -/
inductive ModelName where
  | a | b | c
deriving Repr, DecidableEq

/-- The wire value of each `ModelName` member. -/
def ModelName.value : ModelName → String
  | .a => "abc"
  | .b => "def"
  | .c => "ghi"

/-- Modelled from the spec: enum coercion — the raw segment must equal one
of the members' wire values, otherwise an `enum_violation` results. -/
def ModelName.fromWire (v : String) : Option ModelName :=
  if v = "abc" then some .a
  else if v = "def" then some .b
  else if v = "ghi" then some .c
  else none

/-- Source: `get_model` (src/main.py, `GET /models/{model_name}`): the first branch
compares against the member `ModelName.a`, the second against the wire
value `"ghi"`, and the fallback answers `"el gato"`. -/
def get_model (caps : List (String × String)) (_req : Request) : Response :=
  match ModelName.fromWire (pathStr caps "model_name") with
  | none => .validationError [⟨"model_name", .enumViolation⟩]
  | some model_name =>
    if model_name = ModelName.a then
      .ok (.obj [("model_name", .s model_name.value), ("message", .s "oh")])
    else if model_name.value = "ghi" then
      .ok (.obj [("model_name", .s model_name.value), ("message", .s "hi")])
    else
      .ok (.obj [("model_name", .s model_name.value),
                 ("message", .s "el gato")])

/-- Source: `read_file` (src/main.py, `GET /files/{file_path:path}`): echo the
greedy path parameter, embedded slashes included. -/
def read_file (caps : List (String × String)) (_req : Request) : Response :=
  .ok (.obj [("file_path", .s (pathStr caps "file_path"))])

/-- Source: `fake_items_db` (src/main.py): the fixed 3-item catalog. -/
def fake_items_db : List JVal :=
  [.obj [("item_name", .s "Foo")],
   .obj [("item_name", .s "Bar")],
   .obj [("item_name", .s "Baz")]]

/-- Resolve one bound of a Python slice on a list of length `n`:
negative indices count from the end, and bounds are clamped to `[0, n]`. -/
def pyBound (n : Nat) (i : Int) : Nat :=
  if i < 0 then (max (i + n) 0).toNat else min i.toNat n

/-- Python list slicing `l[a : b]`. -/
def pySlice {α : Type} (l : List α) (a b : Int) : List α :=
  (l.take (pyBound l.length b)).drop (pyBound l.length a)

/-- Source: `read_item`, second binding (src/main.py, `GET /items/`): return
`fake_items_db[skip : skip + limit]` with defaults `skip=0`, `limit=10`. -/
def read_item2 (_caps : List (String × String)) (req : Request) : Response :=
  match queryIntD req.query "skip" 0, queryIntD req.query "limit" 10 with
  | .ok skip, .ok limit =>
    .ok (.arr (pySlice fake_items_db skip (skip + limit)))
  | rs, rl => .validationError (errList rs ++ errList rl)

/-- Source: `read_thing` (src/main.py, `GET /things/{thing_id}`): echo the path
parameter, add `q` only when it is truthy, and add the long description
unless `short` is true. -/
def read_thing (caps : List (String × String)) (req : Request) : Response :=
  match queryBoolD req.query "short" false with
  | .error e => .validationError [e]
  | .ok short =>
    let q := req.query.lookup "q"
    let thing := [("thing_id", JVal.s (pathStr caps "thing_id"))]
    let thing := if truthy q then thing ++ [("q", optStr q)] else thing
    let thing :=
      if ¬ short then
        thing ++
          [("description",
            JVal.s "This is an amazing item that has a long description")]
      else thing
    .ok (.obj thing)

/-- Source: `read_user_item` (src/main.py,
`GET /users/{user_id}/items/{item_id}`). -/
def read_user_item (caps : List (String × String)) (req : Request) :
    Response :=
  match pathInt caps "user_id", queryBoolD req.query "short" false with
  | .ok user_id, .ok short =>
    let q := req.query.lookup "q"
    let item := [("item_id", JVal.s (pathStr caps "item_id")),
                 ("owner_id", JVal.i user_id)]
    let item := if truthy q then item ++ [("q", optStr q)] else item
    let item :=
      if ¬ short then
        item ++
          [("description",
            JVal.s "This is an amazing item that has a long description")]
      else item
    .ok (.obj item)
  | ru, rs => .validationError (errList ru ++ errList rs)

/-- Source: `Item` (src/main.py): the Pydantic request-body model with required
`name` and `price` and optional `description` and `tax`. -/
structure Item where
  name : String
  description : Option String
  price : Rat
  tax : Option Rat

/-- Modelled from the spec: validate the `name` field of a body against
`Item`'s schema (required string). -/
def checkName (b : List (String × JVal)) : Except FieldError String :=
  match b.lookup "name" with
  | none => .error ⟨"name", .missing⟩
  | some (.s v) => .ok v
  | some _ => .error ⟨"name", .typeMismatch⟩

/-- Modelled from the spec: validate the optional `description` field
(defaults to `None`). -/
def checkDescription (b : List (String × JVal)) :
    Except FieldError (Option String) :=
  match b.lookup "description" with
  | none => .ok none
  | some (.s v) => .ok (some v)
  | some .null => .ok none
  | some _ => .error ⟨"description", .typeMismatch⟩

/-- A JSON numeric value as a rational (ints coerce to floats). -/
def numToRat : JVal → Option Rat
  | .q r => some r
  | .i n => some (n : Rat)
  | _ => none

/-- Modelled from the spec: validate the required `price` field (float). -/
def checkPrice (b : List (String × JVal)) : Except FieldError Rat :=
  match b.lookup "price" with
  | none => .error ⟨"price", .missing⟩
  | some v =>
    match numToRat v with
    | some r => .ok r
    | none => .error ⟨"price", .typeMismatch⟩

/-- Modelled from the spec: validate the optional `tax` field
(defaults to `None`). -/
def checkTax (b : List (String × JVal)) : Except FieldError (Option Rat) :=
  match b.lookup "tax" with
  | none => .ok none
  | some .null => .ok none
  | some v =>
    match numToRat v with
    | some r => .ok (some r)
    | none => .error ⟨"tax", .typeMismatch⟩

/-- Modelled from the spec: parse and validate a request body against
`Item`'s field schema; per-field errors are collected in field declaration
order, not fail-fast (spec §7). -/
def validateItem (b : List (String × JVal)) : Except (List FieldError) Item :=
  match checkName b, checkDescription b, checkPrice b, checkTax b with
  | .ok n, .ok d, .ok p, .ok t =>
    .ok { name := n, description := d, price := p, tax := t }
  | rn, rd, rp, rt =>
    .error (errList rn ++ errList rd ++ errList rp ++ errList rt)

/-- Source: `item.dict()`: the item's fields in declaration order, with `None`
serialized as `null`. -/
def Item.dict (it : Item) : List (String × JVal) :=
  [("name", .s it.name),
   ("description", optStr it.description),
   ("price", .q it.price),
   ("tax", optRat it.tax)]

/-- Source: `create_item` (src/main.py, `POST /items/`): the handler
unconditionally computes `price_with_tax = item.price + item.tax`, so an
absent `tax` makes the addition fail at handler execution time. -/
def create_item (_caps : List (String × String)) (req : Request) :
    Response :=
  match req.body with
  | none => .validationError [⟨"body", .missing⟩]
  | some b =>
    match validateItem b with
    | .error errs => .validationError errs
    | .ok item =>
      match item.tax with
      | none => .computationError
      | some tax =>
        let price_with_tax := item.price + tax
        .ok (.obj (item.dict ++ [("price_with_tax", .q price_with_tax)]))

/-- Source: `create_item`, second binding (src/main.py, `PUT /items/{item_id}`):
return `{"item_id": item_id, **item.dict()}` with no computed field. -/
def create_item2 (caps : List (String × String)) (req : Request) :
    Response :=
  match req.body with
  | none => .validationError [⟨"body", .missing⟩]
  | some b =>
    match pathInt caps "item_id", validateItem b with
    | .ok item_id, .ok item =>
      .ok (.obj (("item_id", .i item_id) :: item.dict))
    | rp, ri =>
      .validationError
        (errList rp ++ (match ri with | .error es => es | .ok _ => []))

/-- Source: `read_fruits` (src/main.py, `GET /fruits/`): optional query `q` with
`min_length=3`, `max_length=50`, `regex="^fixedquery$"`; the fruit catalog
plus `q` when truthy. -/
def read_fruits (_caps : List (String × String)) (req : Request) :
    Response :=
  match queryConstrainedStr req.query "q"
      (some 3) (some 50) (some "^fixedquery$") with
  | .error e => .validationError [e]
  | .ok q =>
    let results :=
      [("fruits", JVal.arr [.obj [("fruit_id", .s "apple")],
                            .obj [("fruit_id", .s "pear")]])]
    let results := if truthy q then results ++ [("q", optStr q)] else results
    .ok (.obj results)

/-- Source: `read_vegetables` (src/main.py, `GET /vegetables/`): list-valued query
parameter with alias `veg`; each occurrence is validated independently
against `min_length=3` and the occurrence order is preserved. -/
def read_vegetables (_caps : List (String × String)) (req : Request) :
    Response :=
  let vals := req.query.filterMap
    (fun kv => if kv.1 = "veg" then some kv.2 else none)
  let errs := vals.filterMap
    (fun v => if v.length < 3 then
        some (⟨"veg", .lengthViolation⟩ : FieldError)
      else none)
  if vals.isEmpty then .ok (.obj [("q", .null)])
  else if errs.isEmpty then .ok (.obj [("q", .arr (vals.map JVal.s))])
  else .validationError errs

/-- Source: `read_stones` (src/main.py, `GET /stones/`): optional query with alias
`stone-query`, `min_length=3`, `max_length=50`, `regex="^hard$"`; the
`deprecated` flag is documentation-only and has no runtime effect. -/
def read_stones (_caps : List (String × String)) (req : Request) :
    Response :=
  match queryConstrainedStr req.query "stone-query"
      (some 3) (some 50) (some "^hard$") with
  | .error e => .validationError [e]
  | .ok q =>
    let results :=
      [("stones", JVal.arr [.obj [("stone_id", .s "quartz")],
                            .obj [("stone_id", .s "basalt")]])]
    let results := if truthy q then results ++ [("q", optStr q)] else results
    .ok (.obj results)

/-- The app's route table in registration order (top to bottom of
src/main.py); a trailing `/` in a decorator path is a trailing empty
literal segment. -/
def routes : List Route :=
  [⟨.get, [.lit ""], root⟩,
   ⟨.get, [.lit "items", .ph "item_id" .int], read_item⟩,
   ⟨.get, [.lit "users", .lit "me"], read_user_me⟩,
   ⟨.get, [.lit "users", .ph "user_id" .str], read_user⟩,
   ⟨.get, [.lit "users"], read_users⟩,
   ⟨.get, [.lit "users"], read_users3⟩,
   ⟨.get, [.lit "models", .ph "model_name" .enum], get_model⟩,
   ⟨.get, [.lit "files", .ph "file_path" .path], read_file⟩,
   ⟨.get, [.lit "items", .lit ""], read_item2⟩,
   ⟨.get, [.lit "things", .ph "thing_id" .str], read_thing⟩,
   ⟨.get, [.lit "users", .ph "user_id" .int, .lit "items",
           .ph "item_id" .str], read_user_item⟩,
   ⟨.post, [.lit "items", .lit ""], create_item⟩,
   ⟨.put, [.lit "items", .ph "item_id" .int], create_item2⟩,
   ⟨.get, [.lit "fruits", .lit ""], read_fruits⟩,
   ⟨.get, [.lit "vegetables", .lit ""], read_vegetables⟩,
   ⟨.get, [.lit "stones", .lit ""], read_stones⟩]

/-- Handle one request against the registered route table. -/
def handle (req : Request) : Response :=
  dispatch routes req (splitPath req.path)

/-- A bodyless GET request. -/
def getReq (path : String) (query : List (String × String)) : Request :=
  { method := .get, path := path, query := query, body := none }

/-- A POST /items/ request carrying a JSON-object body. -/
def postItems (b : List (String × JVal)) : Request :=
  { method := .post, path := "/items/", query := [], body := some b }

/-- A PUT request carrying a JSON-object body. -/
def putItems (path : String) (b : List (String × JVal)) : Request :=
  { method := .put, path := path, query := [], body := some b }

/-- Splitting always yields at least one segment. -/
lemma splitSegs_ne_nil (cs : List Char) : splitSegs cs ≠ [] := by
  induction cs with
  | nil => simp [splitSegs]
  | cons c cs ih =>
    simp only [splitSegs]
    split
    · simp
    · split
      · simp
      · simp

/-- Rejoining the split of a character list recovers it (data level). -/
lemma joinSegs_splitSegs_data (cs : List Char) :
    (joinSegs (splitSegs cs)).data = cs := by
  induction cs with
  | nil => rfl
  | cons c cs ih =>
    rcases h : splitSegs cs with _ | ⟨t, ts⟩
    · exact absurd h (splitSegs_ne_nil cs)
    · rw [h] at ih
      by_cases hc : c = '/'
      · subst hc
        simp only [splitSegs, if_pos rfl, h]
        cases ts with
        | nil =>
          simp only [joinSegs, String.data_append] at ih ⊢
          simp [ih]
        | cons u us =>
          simp only [joinSegs, String.data_append] at ih ⊢
          simp [ih]
      · simp only [splitSegs, if_neg hc, h]
        cases ts with
        | nil =>
          simp only [joinSegs] at ih ⊢
          rw [ih]
        | cons u us =>
          simp only [joinSegs, String.data_append] at ih ⊢
          simp [ih]

/-- Rejoining the split of a string recovers the string. -/
lemma joinSegs_splitSegs (v : String) : joinSegs (splitSegs v.data) = v :=
  String.ext (joinSegs_splitSegs_data v.data)

/-- Splitting distributes over the first `/` of a slash-free prefix. -/
lemma splitSegs_append_slash (l₁ l₂ : List Char) (h : '/' ∉ l₁) :
    splitSegs (l₁ ++ '/' :: l₂) = String.mk l₁ :: splitSegs l₂ := by
  induction l₁ with
  | nil => simp [splitSegs]
  | cons c cs ih =>
    have hc : c ≠ '/' := fun hh => h (hh ▸ List.mem_cons_self c cs)
    have hcs : '/' ∉ cs := fun hh => h (List.mem_cons_of_mem c hh)
    simp only [List.cons_append, splitSegs, if_neg hc, List.append_eq]
    rw [ih hcs]

/-- A path of the shape `/seg/tail` splits into `seg` followed by the split
of `tail`, for a slash-free literal `seg`. -/
lemma splitPath_lit_seg (seg v : String) (h : '/' ∉ seg.data) :
    splitPath ("/" ++ seg ++ "/" ++ v) = seg :: splitSegs v.data := by
  have hd : ("/" ++ seg ++ "/" ++ v).data
      = '/' :: (seg.data ++ '/' :: v.data) := by
    simp [String.data_append]
  unfold splitPath
  rw [hd]
  exact splitSegs_append_slash seg.data v.data h

/-- A value differing from the literal fails the anchored literal regex. -/
lemma regexMatch_eq_false (lit v : String) (h : v ≠ lit) :
    regexMatch ("^" ++ lit ++ "$") v = false := by
  simp only [regexMatch, decide_eq_false_iff_not]
  intro hc
  apply h
  have hd := congrArg String.data hc
  simp only [String.data_append] at hd
  apply String.ext
  simpa using hd.symm

/-- A slash-free character list splits into a single segment. -/
lemma splitSegs_no_slash (cs : List Char) (h : '/' ∉ cs) :
    splitSegs cs = [String.mk cs] := by
  induction cs with
  | nil => rfl
  | cons c cs ih =>
    have hc : c ≠ '/' := fun hh => h (hh ▸ List.mem_cons_self c cs)
    have hcs : '/' ∉ cs := fun hh => h (List.mem_cons_of_mem c hh)
    simp only [splitSegs, if_neg hc, ih hcs]

/-- C1: every GET request to the literal path /users/me is answered by the
handler registered for /users/me and yields the user id
"the_current_user"; it is never routed to the later-registered placeholder
route /users/[user_id], so the response is never the echo of "me". -/
theorem claim_C1_users_me_literal_wins (req : Request)
    (hm : req.method = .get) (hp : req.path = "/users/me") :
    handle req = .ok (.obj [("user_id", .s "the_current_user")]) ∧
    handle req ≠ .ok (.obj [("user_id", .s "me")]) := by
  obtain ⟨m, p, qs, b⟩ := req
  dsimp at hm hp
  subst hm hp
  refine ⟨rfl, ?_⟩
  rw [show handle ⟨.get, "/users/me", qs, b⟩ =
    .ok (.obj [("user_id", .s "the_current_user")]) from rfl]
  simp

/-- Witness for C1 at the concrete request GET /users/me. -/
theorem claim_C1_users_me_literal_wins_witness :
    handle (getReq "/users/me" []) =
      .ok (.obj [("user_id", .s "the_current_user")]) ∧
    handle (getReq "/users/me" []) ≠ .ok (.obj [("user_id", .s "me")]) :=
  claim_C1_users_me_literal_wins (getReq "/users/me" []) rfl rfl

/-- C2: every GET request to /users (whatever its query or body, hence on
every repetition) is answered by the first of the two identical
registrations with the list Rick, Morty; the second registration's
response Bean, Elfo is never produced. -/
theorem claim_C2_duplicate_route_first_wins (req : Request)
    (hm : req.method = .get) (hp : req.path = "/users") :
    handle req = .ok (.arr [.s "Rick", .s "Morty"]) ∧
    handle req ≠ .ok (.arr [.s "Bean", .s "Elfo"]) := by
  obtain ⟨m, p, qs, b⟩ := req
  dsimp at hm hp
  subst hm hp
  refine ⟨rfl, ?_⟩
  rw [show handle ⟨.get, "/users", qs, b⟩ =
    .ok (.arr [.s "Rick", .s "Morty"]) from rfl]
  simp

/-- Witness for C2 at the concrete request GET /users. -/
theorem claim_C2_duplicate_route_first_wins_witness :
    handle (getReq "/users" []) = .ok (.arr [.s "Rick", .s "Morty"]) ∧
    handle (getReq "/users" []) ≠ .ok (.arr [.s "Bean", .s "Elfo"]) :=
  claim_C2_duplicate_route_first_wins (getReq "/users" []) rfl rfl

/-- C3: every POST /items/ body that supplies name and price (with or
without a description) but omits tax is answered with a structured
ComputationError — the handler unconditionally computes price + tax — and
never with a success that silently treats the absent tax as zero. -/
theorem claim_C3_absent_tax_computation_error (nm d : String) (pr : Rat) :
    handle (postItems [("name", .s nm), ("price", .q pr)]) =
      .computationError ∧
    handle (postItems
        [("name", .s nm), ("description", .s d), ("price", .q pr)]) =
      .computationError :=
  ⟨rfl, rfl⟩

/-- C4: /models/abc answers "oh", /models/ghi answers "hi", /models/def
answers "el gato", and any other value in the segment yields a
validation/not-found failure, never a successful response. -/
theorem claim_C4_model_enum_coercion :
    handle (getReq "/models/abc" []) =
      .ok (.obj [("model_name", .s "abc"), ("message", .s "oh")]) ∧
    handle (getReq "/models/ghi" []) =
      .ok (.obj [("model_name", .s "ghi"), ("message", .s "hi")]) ∧
    handle (getReq "/models/def" []) =
      .ok (.obj [("model_name", .s "def"), ("message", .s "el gato")]) ∧
    ∀ v : String, v ∉ (["abc", "def", "ghi"] : List String) →
      (handle (getReq ("/models/" ++ v) [])).isOk = false := by
  refine ⟨rfl, rfl, rfl, ?_⟩
  intro v hv
  have h1 : v ≠ "abc" := fun h => hv (by rw [h]; simp)
  have h2 : v ≠ "def" := fun h => hv (by rw [h]; simp)
  have h3 : v ≠ "ghi" := fun h => hv (by rw [h]; simp)
  have hsp : splitPath ("/models/" ++ v) = "models" :: splitSegs v.data :=
    splitPath_lit_seg "models" v (by decide)
  have hh : handle (getReq ("/models/" ++ v) []) =
      dispatch routes (getReq ("/models/" ++ v) [])
        ("models" :: splitSegs v.data) := by
    show dispatch routes _ (splitPath ("/models/" ++ v)) = _
    rw [hsp]
  rw [hh]
  rcases hs : splitSegs v.data with _ | ⟨s, ss⟩
  · exact absurd hs (splitSegs_ne_nil v.data)
  · cases ss with
    | nil =>
      have hsv : s = v := by
        have hj := joinSegs_splitSegs v
        rw [hs] at hj
        simpa [joinSegs] using hj
      subst hsv
      by_cases hse : s = ""
      · simp [dispatch, routes, matchSegs, getReq, hse, Response.isOk]
      · simp [dispatch, routes, matchSegs, getReq, get_model, pathStr,
          ModelName.fromWire, hse, h1, h2, h3, Response.isOk]
    | cons t ts =>
      simp [dispatch, routes, matchSegs, getReq, Response.isOk]

/-- Witness for C4's universal part at the unknown value "xyz". -/
theorem claim_C4_model_enum_coercion_witness :
    ("xyz" : String) ∉ (["abc", "def", "ghi"] : List String) ∧
    (handle (getReq ("/models/" ++ "xyz") [])).isOk = false :=
  ⟨by decide, claim_C4_model_enum_coercion.2.2.2 "xyz" (by decide)⟩

/-- C5: the path-kind placeholder of /files/ consumes all remaining
segments, so for every suffix the response echoes it verbatim, embedded
slashes included; in particular /files/a/b/c.txt echoes "a/b/c.txt". -/
theorem claim_C5_path_placeholder_greedy :
    (∀ rest : String, handle (getReq ("/files/" ++ rest) []) =
      .ok (.obj [("file_path", .s rest)])) ∧
    handle (getReq "/files/a/b/c.txt" []) =
      .ok (.obj [("file_path", .s "a/b/c.txt")]) := by
  refine ⟨?_, rfl⟩
  intro rest
  have hsp : splitPath ("/files/" ++ rest) = "files" :: splitSegs rest.data :=
    splitPath_lit_seg "files" rest (by decide)
  have hh : handle (getReq ("/files/" ++ rest) []) =
      dispatch routes (getReq ("/files/" ++ rest) [])
        ("files" :: splitSegs rest.data) := by
    show dispatch routes _ (splitPath ("/files/" ++ rest)) = _
    rw [hsp]
  rw [hh]
  rcases hs : splitSegs rest.data with _ | ⟨s, ss⟩
  · exact absurd hs (splitSegs_ne_nil rest.data)
  · have hj : joinSegs (s :: ss) = rest := by
      rw [← hs]; exact joinSegs_splitSegs rest
    simp [dispatch, routes, matchSegs, getReq, read_file, pathStr, hj]

/-- C6: GET /items/ returns the slice fake_items_db[skip : skip + limit]:
with the defaults (and with the explicit skip=0, limit=10) all three items
in order, and with skip=1, limit=1 exactly the second item; the catalog is
a fixed value, so repetition returns the same result. -/
theorem claim_C6_pagination_slice :
    handle (getReq "/items/" []) = .ok (.arr fake_items_db) ∧
    handle (getReq "/items/" [("skip", "0"), ("limit", "10")]) =
      .ok (.arr fake_items_db) ∧
    handle (getReq "/items/" [("skip", "1"), ("limit", "1")]) =
      .ok (.arr [.obj [("item_name", .s "Bar")]]) ∧
    fake_items_db = [.obj [("item_name", .s "Foo")],
                     .obj [("item_name", .s "Bar")],
                     .obj [("item_name", .s "Baz")]] :=
  ⟨rfl, rfl, rfl, rfl⟩

/-- C7: for GET /fruits/ the query q is rejected with a length violation
whenever it is shorter than 3 characters, accepted when it equals
"fixedquery" (echoed alongside the catalog), and rejected with a pattern
violation whenever its length is admissible but it differs from the
anchored literal regex ^fixedquery$. -/
theorem claim_C7_fruits_query_constraints :
    (∀ v : String, v.length < 3 →
      handle (getReq "/fruits/" [("q", v)]) =
        .validationError [⟨"q", .lengthViolation⟩]) ∧
    handle (getReq "/fruits/" [("q", "fixedquery")]) =
      .ok (.obj [("fruits", .arr [.obj [("fruit_id", .s "apple")],
                                  .obj [("fruit_id", .s "pear")]]),
                 ("q", .s "fixedquery")]) ∧
    (∀ v : String, 3 ≤ v.length → v.length ≤ 50 → v ≠ "fixedquery" →
      handle (getReq "/fruits/" [("q", v)]) =
        .validationError [⟨"q", .patternViolation⟩]) := by
  refine ⟨?_, rfl, ?_⟩
  · intro v hv
    rw [show handle (getReq "/fruits/" [("q", v)]) =
      read_fruits [] (getReq "/fruits/" [("q", v)]) from rfl]
    simp [read_fruits, queryConstrainedStr, List.lookup, hv]
  · intro v h3 h50 hne
    rw [show handle (getReq "/fruits/" [("q", v)]) =
      read_fruits [] (getReq "/fruits/" [("q", v)]) from rfl]
    have hr : regexMatch "^fixedquery$" v = false :=
      regexMatch_eq_false "fixedquery" v hne
    simp [read_fruits, queryConstrainedStr, List.lookup, hr,
      Nat.not_lt.mpr h3, Nat.not_lt.mpr h50]

/-- Witness for C7 at q = "ab" (too short) and q = "other" (no match). -/
theorem claim_C7_fruits_query_constraints_witness :
    ("ab" : String).length < 3 ∧
    handle (getReq "/fruits/" [("q", "ab")]) =
      .validationError [⟨"q", .lengthViolation⟩] ∧
    handle (getReq "/fruits/" [("q", "other")]) =
      .validationError [⟨"q", .patternViolation⟩] :=
  ⟨by decide, claim_C7_fruits_query_constraints.1 "ab" (by decide),
   claim_C7_fruits_query_constraints.2.2 "other" (by decide) (by decide)
     (by decide)⟩

/-- C8: a POST /items/ body lacking the required name field, or lacking the
required price field, is rejected with a per-field missing error for each
absent field (the handler body is never reached); a body lacking both is
rejected with both errors. -/
theorem claim_C8_missing_required_body_fields (b : List (String × JVal)) :
    (b.lookup "name" = none →
      ∃ errs, handle (postItems b) = .validationError errs ∧
        (⟨"name", .missing⟩ : FieldError) ∈ errs) ∧
    (b.lookup "price" = none →
      ∃ errs, handle (postItems b) = .validationError errs ∧
        (⟨"price", .missing⟩ : FieldError) ∈ errs) ∧
    handle (postItems []) =
      .validationError [⟨"name", .missing⟩, ⟨"price", .missing⟩] := by
  refine ⟨?_, ?_, rfl⟩
  · intro hn
    rw [show handle (postItems b) = create_item [] (postItems b) from rfl]
    have hcn : checkName b = .error ⟨"name", .missing⟩ := by
      simp [checkName, hn]
    rcases hcd : checkDescription b with e1 | d <;>
      rcases hcp : checkPrice b with e2 | p <;>
        rcases hct : checkTax b with e3 | t <;>
          simp [create_item, postItems, validateItem, hcn, hcd, hcp, hct,
            errList]
  · intro hp
    rw [show handle (postItems b) = create_item [] (postItems b) from rfl]
    have hcp : checkPrice b = .error ⟨"price", .missing⟩ := by
      simp [checkPrice, hp]
    rcases hcn : checkName b with e1 | n <;>
      rcases hcd : checkDescription b with e2 | d <;>
        rcases hct : checkTax b with e3 | t <;>
          simp [create_item, postItems, validateItem, hcn, hcd, hcp, hct,
            errList]

/-- Witness for C8 at the empty body, which lacks the name field. -/
theorem claim_C8_missing_required_body_fields_witness :
    (([] : List (String × JVal)).lookup "name" = none) ∧
    ∃ errs, handle (postItems []) = .validationError errs ∧
      (⟨"name", ErrKind.missing⟩ : FieldError) ∈ errs :=
  ⟨rfl, (claim_C8_missing_required_body_fields []).1 rfl⟩

/-- C9: every PUT /items/[item_id] request whose path segment parses as an
integer and whose body is valid returns exactly the merged object item_id
plus the four body fields of the validated item and nothing else; in
particular, for every field valuation, bodies with or without description
and with or without tax succeed, an absent tax is echoed as null, and no
price_with_tax field is added. -/
theorem claim_C9_put_merges_path_and_body (seg : String) (iid : Int)
    (hseg : '/' ∉ seg.data) (hiid : parseInt seg = some iid) :
    (∀ (b : List (String × JVal)) (it : Item), validateItem b = .ok it →
      handle (putItems ("/items/" ++ seg) b) =
        .ok (.obj (("item_id", .i iid) :: it.dict))) ∧
    (∀ (nm : String) (pr : Rat),
      handle (putItems ("/items/" ++ seg)
          [("name", .s nm), ("price", .q pr)]) =
        .ok (.obj [("item_id", .i iid), ("name", .s nm),
                   ("description", .null), ("price", .q pr),
                   ("tax", .null)])) ∧
    (∀ (nm d : String) (pr : Rat),
      handle (putItems ("/items/" ++ seg)
          [("name", .s nm), ("description", .s d), ("price", .q pr)]) =
        .ok (.obj [("item_id", .i iid), ("name", .s nm),
                   ("description", .s d), ("price", .q pr),
                   ("tax", .null)])) ∧
    (∀ (nm d : String) (pr tx : Rat),
      handle (putItems ("/items/" ++ seg)
          [("name", .s nm), ("description", .s d), ("price", .q pr),
           ("tax", .q tx)]) =
        .ok (.obj [("item_id", .i iid), ("name", .s nm),
                   ("description", .s d), ("price", .q pr),
                   ("tax", .q tx)])) := by
  have hne : seg ≠ "" := by
    intro h
    rw [h] at hiid
    simp [parseInt] at hiid
  have hsp : splitPath ("/items/" ++ seg) = "items" :: splitSegs seg.data :=
    splitPath_lit_seg "items" seg (by decide)
  have hss : splitSegs seg.data = [seg] := splitSegs_no_slash seg.data hseg
  have main : ∀ (b : List (String × JVal)) (it : Item),
      validateItem b = .ok it →
      handle (putItems ("/items/" ++ seg) b) =
        .ok (.obj (("item_id", .i iid) :: it.dict)) := by
    intro b it hb
    have hh : handle (putItems ("/items/" ++ seg) b) =
        dispatch routes (putItems ("/items/" ++ seg) b) ["items", seg] := by
      show dispatch routes _ (splitPath ("/items/" ++ seg)) = _
      rw [hsp, hss]
    rw [hh]
    simp [dispatch, routes, matchSegs, putItems, hne, create_item2,
      pathInt, List.lookup, hiid, hb]
  refine ⟨main, ?_, ?_, ?_⟩
  · intro nm pr
    exact main [("name", .s nm), ("price", .q pr)]
      ⟨nm, none, pr, none⟩ rfl
  · intro nm d pr
    exact main [("name", .s nm), ("description", .s d), ("price", .q pr)]
      ⟨nm, some d, pr, none⟩ rfl
  · intro nm d pr tx
    exact main [("name", .s nm), ("description", .s d), ("price", .q pr),
      ("tax", .q tx)] ⟨nm, some d, pr, some tx⟩ rfl

/-- Witness for C9 at item_id 5 with bodies lacking and supplying the
optional description while omitting tax. -/
theorem claim_C9_put_merges_path_and_body_witness :
    ('/' ∉ ("5" : String).data) ∧ parseInt "5" = some 5 ∧
    handle (putItems ("/items/" ++ "5")
        [("name", .s "x"), ("price", .q 10)]) =
      .ok (.obj [("item_id", .i 5), ("name", .s "x"),
                 ("description", .null), ("price", .q 10),
                 ("tax", .null)]) ∧
    handle (putItems ("/items/" ++ "5")
        [("name", .s "x"), ("description", .s "y"), ("price", .q 10)]) =
      .ok (.obj [("item_id", .i 5), ("name", .s "x"),
                 ("description", .s "y"), ("price", .q 10),
                 ("tax", .null)]) :=
  ⟨by decide, rfl,
   (claim_C9_put_merges_path_and_body "5" 5 (by decide) rfl).2.1 "x" 10,
   (claim_C9_put_merges_path_and_body "5" 5 (by decide) rfl).2.2.1
     "x" "y" 10⟩

/-- C10: for every thing_id, a GET /things/ request with q supplied as the
empty string is answered exactly as if q were absent (the handler keeps q
only when truthy); concretely the q key is omitted from the response. -/
theorem claim_C10_empty_query_omitted (tid : String) :
    handle (getReq ("/things/" ++ tid) [("q", "")]) =
      handle (getReq ("/things/" ++ tid) []) ∧
    handle (getReq "/things/t1" [("q", "")]) =
      .ok (.obj [("thing_id", .s "t1"),
        ("description",
         .s "This is an amazing item that has a long description")]) := by
  refine ⟨?_, rfl⟩
  have hsp : splitPath ("/things/" ++ tid) = "things" :: splitSegs tid.data :=
    splitPath_lit_seg "things" tid (by decide)
  have hh1 : handle (getReq ("/things/" ++ tid) [("q", "")]) =
      dispatch routes (getReq ("/things/" ++ tid) [("q", "")])
        ("things" :: splitSegs tid.data) := by
    show dispatch routes _ (splitPath ("/things/" ++ tid)) = _
    rw [hsp]
  have hh2 : handle (getReq ("/things/" ++ tid) []) =
      dispatch routes (getReq ("/things/" ++ tid) [])
        ("things" :: splitSegs tid.data) := by
    show dispatch routes _ (splitPath ("/things/" ++ tid)) = _
    rw [hsp]
  rw [hh1, hh2]
  rcases hs : splitSegs tid.data with _ | ⟨s, ss⟩
  · exact absurd hs (splitSegs_ne_nil tid.data)
  · cases ss with
    | nil =>
      by_cases hse : s = ""
      · simp [dispatch, routes, matchSegs, getReq, hse]
      · simp [dispatch, routes, matchSegs, getReq, hse, read_thing,
          queryBoolD, truthy, pathStr, optStr, List.lookup]
    | cons t ts =>
      simp [dispatch, routes, matchSegs, getReq]
